import Mathlib

/-!
Shallow embedding of the ELO swarm simulation (`src/lib/elo_swarm.py`).

Modelling conventions:
* Python floats are idealised as exact numbers.  Ratings, stakes and escrow
  stay in `ℚ` (every update adds an integer delta or a rational stake), while
  the ELO expected-outcome computation, which uses `math.pow(10, ·)`, lives
  in `ℝ` via `Real.rpow`.
* Python's built-in `round` (round-half-to-even, returning `int`) is embedded
  as `pyRound` below.
* The process-wide `random` stream is made explicit: agent construction takes
  a draw function for the `random.uniform` calls, each interaction takes the
  two `random.random()` draws used by `will_complete`, and the run loop takes
  a per-(round, interaction) draw that resolves the weighted pair selection
  (including the redraw-until-distinct loop) to the chosen agent indices.
* Python exceptions that can occur on the modelled paths (`ZeroDivisionError`
  from `/`, `IndexError` from list indexing / selection from an empty
  population) are embedded with `Except`.
-/

namespace EloSwarm

/-- ELO constants from `elo_swarm.py`. -/
def DEFAULT_RATING : ℚ := 1200

def MINIMUM_RATING : ℚ := 100

def ELO_DIVISOR : ℝ := 400

def K_NEW : ℤ := 32

def K_INTERMEDIATE : ℤ := 24

def K_ESTABLISHED : ℤ := 16

def TRANSACTIONS_NEW : ℕ := 30

def TRANSACTIONS_INTERMEDIATE : ℕ := 100

/-- `calculate_expected`: standard ELO expected outcome,
`1 / (1 + 10 ** ((opponent - self) / 400))`. -/
noncomputable def calculate_expected (self_rating opponent_rating : ℝ) : ℝ :=
  1 / (1 + (10 : ℝ) ^ ((opponent_rating - self_rating) / ELO_DIVISOR))

/-- `get_k_factor`: K-factor based on experience. -/
def get_k_factor (transactions : ℕ) : ℤ :=
  if transactions < TRANSACTIONS_NEW then K_NEW
  else if transactions < TRANSACTIONS_INTERMEDIATE then K_INTERMEDIATE
  else K_ESTABLISHED

/-- Python's built-in `round` on a real argument: round to the nearest
integer, ties to the even integer. -/
noncomputable def pyRound (x : ℝ) : ℤ :=
  if x - (⌊x⌋ : ℝ) < 1 / 2 then ⌊x⌋
  else if (1 / 2 : ℝ) < x - (⌊x⌋ : ℝ) then ⌊x⌋ + 1
  else if ⌊x⌋ % 2 = 0 then ⌊x⌋ else ⌊x⌋ + 1

/-- `calculate_completion_gain`: gain from successful completion,
`max(1, round(k * (1 - expected) [/ 2 if halve]))`. -/
noncomputable def calculate_completion_gain (self_rating opponent_rating : ℝ)
    (k : ℤ) (halve : Bool) : ℤ :=
  let expected := calculate_expected self_rating opponent_rating
  let gain := (k : ℝ) * (1 - expected)
  let gain := if halve then gain / 2 else gain
  max 1 (pyRound gain)

/-- `calculate_dispute_loss`: loss for the at-fault party,
`max(1, round(k * expected))`. -/
noncomputable def calculate_dispute_loss (self_rating opponent_rating : ℝ)
    (k : ℤ) : ℤ :=
  let expected := calculate_expected self_rating opponent_rating
  max 1 (pyRound ((k : ℝ) * expected))

/-- The four behavioural variants of `Agent.agent_type` (string tags in the
source). -/
inductive AgentType where
  | reliable
  | unreliable
  | malicious
  | selective
deriving DecidableEq

/-- The mutable `Agent` dataclass. -/
structure Agent where
  id : ℕ
  agent_type : AgentType
  rating : ℚ
  transactions : ℕ
  completions : ℕ
  disputes_won : ℕ
  disputes_lost : ℕ
  escrowed : ℚ
  reliability : ℚ
  stake_willingness : ℚ
deriving DecidableEq

/-- `Agent.available_elo`: `max(0, rating - escrowed - MINIMUM_RATING)`. -/
def Agent.available_elo (a : Agent) : ℚ :=
  max 0 (a.rating - a.escrowed - MINIMUM_RATING)

/-- `Agent.get_stake`: `min(available * stake_willingness, max_stake)`.
The source declares `max_stake` with default value `100`; callers in the
source always use the default, so the model passes `100` explicitly. -/
def Agent.get_stake (a : Agent) (max_stake : ℚ) : ℚ :=
  min (a.available_elo * a.stake_willingness) max_stake

/-- `Agent.will_complete`, with the `random.random()` draw `u` made explicit:
the source compares the draw against a type-dependent threshold.  The
source's fallback branch for unrecognised type strings is unreachable for
the four-variant type and is not modelled. -/
def Agent.will_complete (a : Agent) (counterparty : Agent) (u : ℚ) : Bool :=
  match a.agent_type with
  | .reliable => decide (u < a.reliability)
  | .unreliable => decide (u < a.reliability)
  | .malicious =>
      let defect_prob := 1 / 2 + (counterparty.rating - 1200) / 2000
      decide (defect_prob < u)
  | .selective =>
      if |a.rating - counterparty.rating| > 200 then decide (u < 1 / 2)
      else decide (u < 95 / 100)

/-- Python exceptions reachable in the modelled code paths, plus the
spec's error class.  Modelled from the spec: the spec's §7 error taxonomy
names a `ConfigurationError`, but no such class (and no configuration
validation) exists anywhere in the source; the constructor exists only so
that claims about it can be stated. -/
inductive PyErr where
  | zeroDivisionError
  | indexError
  | configurationError
deriving DecidableEq

/-- Python `/` on exact rationals: raises `ZeroDivisionError` on a zero
denominator, otherwise exact division. -/
def pydiv (x y : ℚ) : Except PyErr ℚ :=
  if y = 0 then .error .zeroDivisionError else .ok (x / y)

/-- The `ELOSimulation` object state: the two configuration flags, the agent
list, the snapshot history and the two global counters. -/
structure ELOSimulation where
  halve_gains : Bool
  enable_staking : Bool
  agents : List Agent
  rating_history : List (List (ℕ × ℚ))
  total_completions : ℕ
  total_disputes : ℕ
deriving DecidableEq

/-- `ELOSimulation.record_ratings`: append a snapshot mapping each agent id
to its current rating. -/
def ELOSimulation.record_ratings (s : ELOSimulation) : ELOSimulation :=
  { s with rating_history :=
      s.rating_history ++ [s.agents.map (fun a => (a.id, a.rating))] }

/-- `ELOSimulation.process_interaction`, with the two `random.random()`
draws of the completion decisions explicit (`u1` for the proposer, `u2` for
the acceptor).  Returns the updated proposer, the updated acceptor and the
simulation state with its global counters updated; the in-place mutation of
the Python agent objects becomes explicit state passing.  The escrow-release
lines, which the source repeats verbatim at the end of each of the three
branches, are factored to after the branch, followed by the transaction
increments that the source performs after the branch. -/
noncomputable def ELOSimulation.process_interaction (s : ELOSimulation)
    (proposer acceptor : Agent) (u1 u2 : ℚ) :
    Agent × Agent × ELOSimulation :=
  let proposer_stake := if s.enable_staking then proposer.get_stake 100 else 0
  let acceptor_stake := if s.enable_staking then acceptor.get_stake 100 else 0
  let proposer := { proposer with escrowed := proposer.escrowed + proposer_stake }
  let acceptor := { acceptor with escrowed := acceptor.escrowed + acceptor_stake }
  let proposer_completes := proposer.will_complete acceptor u1
  let acceptor_completes := acceptor.will_complete proposer u2
  let k_proposer := get_k_factor proposer.transactions
  let k_acceptor := get_k_factor acceptor.transactions
  let step :=
    if proposer_completes && acceptor_completes then
      let gain_proposer :=
        calculate_completion_gain (proposer.rating : ℝ) (acceptor.rating : ℝ)
          k_proposer s.halve_gains
      let gain_acceptor :=
        calculate_completion_gain (acceptor.rating : ℝ) (proposer.rating : ℝ)
          k_acceptor s.halve_gains
      let proposer := { proposer with
        rating := max MINIMUM_RATING (proposer.rating + (gain_proposer : ℚ)),
        completions := proposer.completions + 1 }
      let acceptor := { acceptor with
        rating := max MINIMUM_RATING (acceptor.rating + (gain_acceptor : ℚ)),
        completions := acceptor.completions + 1 }
      (proposer, acceptor,
        { s with total_completions := s.total_completions + 1 })
    else if !proposer_completes && !acceptor_completes then
      let loss_proposer :=
        (calculate_dispute_loss (proposer.rating : ℝ) (acceptor.rating : ℝ)
          k_proposer : ℚ) + proposer_stake
      let loss_acceptor :=
        (calculate_dispute_loss (acceptor.rating : ℝ) (proposer.rating : ℝ)
          k_acceptor : ℚ) + acceptor_stake
      let proposer := { proposer with
        rating := max MINIMUM_RATING (proposer.rating - loss_proposer),
        disputes_lost := proposer.disputes_lost + 1 }
      let acceptor := { acceptor with
        rating := max MINIMUM_RATING (acceptor.rating - loss_acceptor),
        disputes_lost := acceptor.disputes_lost + 1 }
      (proposer, acceptor,
        { s with total_disputes := s.total_disputes + 1 })
    else
      let winner := if proposer_completes then proposer else acceptor
      let loser := if proposer_completes then acceptor else proposer
      let loser_stake := if proposer_completes then acceptor_stake else proposer_stake
      let k_loser := if proposer_completes then k_acceptor else k_proposer
      let win_gain :=
        pyRound ((calculate_dispute_loss (loser.rating : ℝ) (winner.rating : ℝ)
          k_loser : ℝ) * 0.5)
      let winner := { winner with
        rating := max MINIMUM_RATING (winner.rating + (win_gain : ℚ) + loser_stake) }
      let lose_loss :=
        (calculate_dispute_loss (loser.rating : ℝ) (winner.rating : ℝ)
          k_loser : ℚ) + loser_stake
      let loser := { loser with
        rating := max MINIMUM_RATING (loser.rating - lose_loss) }
      let winner := { winner with disputes_won := winner.disputes_won + 1 }
      let loser := { loser with disputes_lost := loser.disputes_lost + 1 }
      let proposer := if proposer_completes then winner else loser
      let acceptor := if proposer_completes then loser else winner
      (proposer, acceptor,
        { s with total_disputes := s.total_disputes + 1 })
  let proposer := step.1
  let acceptor := step.2.1
  let s := step.2.2
  let proposer := { proposer with
    escrowed := proposer.escrowed - proposer_stake,
    transactions := proposer.transactions + 1 }
  let acceptor := { acceptor with
    escrowed := acceptor.escrowed - acceptor_stake,
    transactions := acceptor.transactions + 1 }
  (proposer, acceptor, s)

/-- One pairing's worth of random draws in the run loop: the chosen proposer
and acceptor indices (the weighted `random.choices` selection and its
redraw-until-distinct loop are resolved by the draw sequence) and the two
`random.random()` draws consumed by the completion decisions. -/
structure Draw where
  pIdx : ℕ
  aIdx : ℕ
  u1 : ℚ
  u2 : ℚ

/-- One pairing of the run loop: select the two agents by the draw's indices
(an out-of-range index — in particular any selection from an empty
population — is Python's `IndexError`), process the interaction, and write
the two mutated agents back into the population list. -/
noncomputable def ELOSimulation.run_one_interaction (s : ELOSimulation)
    (d : Draw) : Except PyErr ELOSimulation :=
  match s.agents.get? d.pIdx, s.agents.get? d.aIdx with
  | some p, some a =>
      let r := s.process_interaction p a d.u1 d.u2
      .ok { r.2.2 with agents := (r.2.2.agents.set d.pIdx r.1).set d.aIdx r.2.1 }
  | _, _ => .error .indexError

/-- The inner loop of `run`: perform the remaining interactions of one
round, feeding draw `i`, `i+1`, … . -/
noncomputable def ELOSimulation.run_interactions (ds : ℕ → Draw) :
    ℕ → ℕ → ELOSimulation → Except PyErr ELOSimulation
  | _, 0, s => .ok s
  | i, n + 1, s =>
      match s.run_one_interaction (ds i) with
      | .ok s1 => ELOSimulation.run_interactions ds (i + 1) n s1
      | .error e => .error e

/-- One round of `run`: all pairings, then a snapshot when the round index
is a multiple of 10. -/
noncomputable def ELOSimulation.run_round (s : ELOSimulation)
    (round_num interactions_per_round : ℕ) (draws : ℕ → ℕ → Draw) :
    Except PyErr ELOSimulation :=
  match ELOSimulation.run_interactions (draws round_num) 0
      interactions_per_round s with
  | .ok s1 => .ok (if round_num % 10 = 0 then s1.record_ratings else s1)
  | .error e => .error e

/-- The round loop of `run`, from round index `round_num` with `n` rounds
remaining. -/
noncomputable def ELOSimulation.run_rounds (interactions_per_round : ℕ)
    (draws : ℕ → ℕ → Draw) :
    ℕ → ℕ → ELOSimulation → Except PyErr ELOSimulation
  | _, 0, s => .ok s
  | round_num, n + 1, s =>
      match s.run_round round_num interactions_per_round draws with
      | .ok s1 => ELOSimulation.run_rounds interactions_per_round draws
          (round_num + 1) n s1
      | .error e => .error e

/-- The Gini-coefficient block of `get_results`: sort ratings ascending and
compute `(2 * Σ (i+1)·r_i) / (n * Σ r) - (n+1)/n`, with Python's `/`
raising `ZeroDivisionError` on a zero denominator. -/
def gini_of (rs : List ℚ) : Except PyErr ℚ :=
  let ratings := rs.insertionSort (· ≤ ·)
  let n := ratings.length
  let cumulative := (ratings.enum.map (fun p => ((p.1 : ℚ) + 1) * p.2)).sum
  match pydiv (2 * cumulative) ((n : ℚ) * ratings.sum) with
  | .ok t1 =>
      match pydiv ((n : ℚ) + 1) (n : ℚ) with
      | .ok t2 => .ok (t1 - t2)
      | .error e => .error e
  | .error e => .error e

/-- The per-variant average-rating block of `get_results`: group ratings by
`agent_type` and take the arithmetic mean of each non-empty group (the
source's `defaultdict` only ever holds non-empty groups). -/
def type_avg (agents : List Agent) : List (AgentType × ℚ) :=
  [AgentType.reliable, AgentType.unreliable, AgentType.malicious,
    AgentType.selective].filterMap (fun t =>
      let rs := (agents.filter (fun a => decide (a.agent_type = t))).map Agent.rating
      if rs.length = 0 then none else some (t, rs.sum / (rs.length : ℚ)))

/-- The immutable `SimulationResult` record. -/
structure SimulationResult where
  rounds : ℕ
  agents : List Agent
  rating_history : List (List (ℕ × ℚ))
  total_completions : ℕ
  total_disputes : ℕ
  inflation_rate : ℚ
  gini_coefficient : ℚ
  type_avg_ratings : List (AgentType × ℚ)
deriving DecidableEq

/-- `ELOSimulation.get_results`: inflation from the first snapshot
(`rating_history[0]` is an `IndexError` when no snapshot exists), then the
Gini coefficient, then the per-variant averages. -/
def ELOSimulation.get_results (s : ELOSimulation) (rounds : ℕ) :
    Except PyErr SimulationResult :=
  match s.rating_history.head? with
  | none => .error .indexError
  | some h0 =>
      let initial_total := (h0.map Prod.snd).sum
      let final_total := (s.agents.map Agent.rating).sum
      match pydiv (final_total - initial_total) initial_total with
      | .error e => .error e
      | .ok inflation_rate =>
          match gini_of (s.agents.map Agent.rating) with
          | .error e => .error e
          | .ok gini =>
              .ok { rounds := rounds
                    agents := s.agents
                    rating_history := s.rating_history
                    total_completions := s.total_completions
                    total_disputes := s.total_disputes
                    inflation_rate := inflation_rate
                    gini_coefficient := gini
                    type_avg_ratings := type_avg s.agents }

/-- `ELOSimulation.run`: initial snapshot, the round loop, the final
snapshot, then `get_results`.  Returns the final simulation state (which
carries the snapshot history) together with the result. -/
noncomputable def ELOSimulation.run (s : ELOSimulation)
    (rounds interactions_per_round : ℕ) (draws : ℕ → ℕ → Draw) :
    Except PyErr (ELOSimulation × SimulationResult) :=
  let s := s.record_ratings
  match ELOSimulation.run_rounds interactions_per_round draws 0 rounds s with
  | .error e => .error e
  | .ok s1 =>
      let s2 := s1.record_ratings
      match s2.get_results rounds with
      | .error e => .error e
      | .ok res => .ok (s2, res)

/-- `random.uniform(lo, hi)` with its underlying `random.random()` draw `u`
made explicit. -/
def uniformDraw (lo hi u : ℚ) : ℚ := lo + (hi - lo) * u

/-- Construction of one `reliable` agent in `ELOSimulation.__init__`. -/
def mkReliable (i : ℕ) (u : ℚ × ℚ) : Agent :=
  { id := i, agent_type := .reliable, rating := DEFAULT_RATING,
    transactions := 0, completions := 0, disputes_won := 0, disputes_lost := 0,
    escrowed := 0,
    reliability := uniformDraw (85 / 100) (99 / 100) u.1,
    stake_willingness := uniformDraw (3 / 10) (7 / 10) u.2 }

/-- Construction of one `unreliable` agent in `ELOSimulation.__init__`. -/
def mkUnreliable (i : ℕ) (u : ℚ × ℚ) : Agent :=
  { id := i, agent_type := .unreliable, rating := DEFAULT_RATING,
    transactions := 0, completions := 0, disputes_won := 0, disputes_lost := 0,
    escrowed := 0,
    reliability := uniformDraw (3 / 10) (6 / 10) u.1,
    stake_willingness := uniformDraw (1 / 10) (3 / 10) u.2 }

/-- Construction of one `malicious` agent in `ELOSimulation.__init__`
(fixed reliability `0.3`, one uniform draw for the stake willingness). -/
def mkMalicious (i : ℕ) (u : ℚ × ℚ) : Agent :=
  { id := i, agent_type := .malicious, rating := DEFAULT_RATING,
    transactions := 0, completions := 0, disputes_won := 0, disputes_lost := 0,
    escrowed := 0,
    reliability := 3 / 10,
    stake_willingness := uniformDraw 0 (2 / 10) u.1 }

/-- Construction of one `selective` agent in `ELOSimulation.__init__`
(fixed reliability `0.9`, one uniform draw for the stake willingness). -/
def mkSelective (i : ℕ) (u : ℚ × ℚ) : Agent :=
  { id := i, agent_type := .selective, rating := DEFAULT_RATING,
    transactions := 0, completions := 0, disputes_won := 0, disputes_lost := 0,
    escrowed := 0,
    reliability := 9 / 10,
    stake_willingness := uniformDraw (4 / 10) (8 / 10) u.1 }

/-- The agent population built by `ELOSimulation.__init__`: sequential ids,
reliable then unreliable then malicious then selective, with the
`random.uniform` draws supplied per agent id by `us`. -/
def initAgents (n_reliable n_unreliable n_malicious n_selective : ℕ)
    (us : ℕ → ℚ × ℚ) : List Agent :=
  ((List.range n_reliable).map fun i => mkReliable i (us i)) ++
  ((List.range n_unreliable).map fun i =>
    mkUnreliable (n_reliable + i) (us (n_reliable + i))) ++
  ((List.range n_malicious).map fun i =>
    mkMalicious (n_reliable + n_unreliable + i)
      (us (n_reliable + n_unreliable + i))) ++
  ((List.range n_selective).map fun i =>
    mkSelective (n_reliable + n_unreliable + n_malicious + i)
      (us (n_reliable + n_unreliable + n_malicious + i)))

/-- `ELOSimulation.__init__`: flags, freshly built population, empty
history, zeroed counters. -/
def mkSimulation (n_reliable n_unreliable n_malicious n_selective : ℕ)
    (halve_gains enable_staking : Bool) (us : ℕ → ℚ × ℚ) : ELOSimulation :=
  { halve_gains := halve_gains
    enable_staking := enable_staking
    agents := initAgents n_reliable n_unreliable n_malicious n_selective us
    rating_history := []
    total_completions := 0
    total_disputes := 0 }

/-- A reliable agent at the default rating that always completes
(`reliability = 1`) and never stakes (`stake_willingness = 0`). -/
def agentA : Agent := ⟨0, .reliable, 1200, 0, 0, 0, 0, 0, 1, 0⟩

/-- A reliable agent far below `agentA`, at the rating floor, that never
completes (`reliability = 0`) and never stakes. -/
def agentB : Agent := ⟨1, .reliable, 100, 0, 0, 0, 0, 0, 0, 0⟩

/-- A reliable agent at rating 1600 that never completes and whose
stake willingness yields a stake of exactly `1500 * 43/750 = 86`. -/
def agentL : Agent := ⟨1, .reliable, 1600, 0, 0, 0, 0, 0, 0, 43 / 750⟩

/-- A simulation state with staking enabled and no population (the
population list is irrelevant to `process_interaction`). -/
def simStake : ELOSimulation := ⟨true, true, [], [], 0, 0⟩

/-- A simulation state with staking disabled. -/
def simNoStake : ELOSimulation := ⟨true, false, [], [], 0, 0⟩

/-- A fresh one-agent simulation. -/
def simW9 : ELOSimulation := ⟨true, true, [agentA], [], 0, 0⟩

/-- A constant draw sequence. -/
def drawConst : ℕ → ℕ → Draw := fun _ _ => ⟨0, 0, 0, 0⟩

theorem pyRound_eq_of_lt_half (x : ℝ) (n : ℤ) (h1 : (n : ℝ) ≤ x)
    (h2 : x < (n : ℝ) + 1 / 2) : pyRound x = n := by
  have hfl : ⌊x⌋ = n := by
    apply Int.floor_eq_iff.mpr
    exact ⟨h1, by linarith⟩
  unfold pyRound
  rw [hfl, if_pos (by linarith)]

theorem pyRound_tie_even (n : ℤ) (h : n % 2 = 0) :
    pyRound ((n : ℝ) + 1 / 2) = n := by
  have hfl : ⌊(n : ℝ) + 1 / 2⌋ = n := by
    apply Int.floor_eq_iff.mpr
    constructor
    · linarith
    · linarith
  unfold pyRound
  rw [hfl]
  rw [if_neg (by linarith), if_neg (by linarith), if_pos h]

theorem will_complete_set_escrowed (p q : Agent) (e e' : ℚ) (u : ℚ) :
    Agent.will_complete { p with escrowed := e } { q with escrowed := e' } u =
      p.will_complete q u := by
  unfold Agent.will_complete
  rfl

theorem dl_1600_1200 : calculate_dispute_loss 1600 1200 32 = 29 := by
  have hexp : ((1200 : ℝ) - 1600) / ELO_DIVISOR = -1 := by
    unfold ELO_DIVISOR; norm_num
  have ht : (10 : ℝ) ^ (-1 : ℝ) = 1 / 10 := by
    rw [show (-1 : ℝ) = -(1 : ℝ) by norm_num,
      Real.rpow_neg (by norm_num : (0 : ℝ) ≤ 10), Real.rpow_one]
    norm_num
  have hval : pyRound ((32 : ℝ) * (1 / (1 + (1 : ℝ) / 10))) = 29 := by
    apply pyRound_eq_of_lt_half
    · push_cast; norm_num
    · push_cast; norm_num
  simp only [calculate_dispute_loss, calculate_expected, hexp, ht]
  push_cast
  rw [hval]
  norm_num

theorem dl_1600_1300 : calculate_dispute_loss 1600 1300 32 = 27 := by
  have hexp : ((1300 : ℝ) - 1600) / ELO_DIVISOR = -(3 / 4) := by
    unfold ELO_DIVISOR; norm_num
  set u := (10 : ℝ) ^ ((3 : ℝ) / 4) with hu
  have hupos : (0 : ℝ) < u := Real.rpow_pos_of_pos (by norm_num) _
  have hu4 : u ^ (4 : ℕ) = 1000 := by
    rw [hu, ← Real.rpow_natCast ((10 : ℝ) ^ ((3 : ℝ) / 4)) 4,
      ← Real.rpow_mul (by norm_num : (0 : ℝ) ≤ 10)]
    rw [show ((3 : ℝ) / 4 * ((4 : ℕ) : ℝ)) = ((3 : ℕ) : ℝ) by norm_num,
      Real.rpow_natCast]
    norm_num
  have hlo : (27 / 5 : ℝ) < u := by
    by_contra h
    push_neg at h
    have h4 : u ^ (4 : ℕ) ≤ (27 / 5 : ℝ) ^ (4 : ℕ) :=
      pow_le_pow_left₀ (le_of_lt hupos) h 4
    rw [hu4] at h4
    norm_num at h4
  have hhi : u < (55 / 9 : ℝ) := by
    by_contra h
    push_neg at h
    have h4 : (55 / 9 : ℝ) ^ (4 : ℕ) ≤ u ^ (4 : ℕ) :=
      pow_le_pow_left₀ (by norm_num) h 4
    rw [hu4] at h4
    norm_num at h4
  have htneg : (10 : ℝ) ^ (-(3 / 4) : ℝ) = u⁻¹ := by
    rw [Real.rpow_neg (by norm_num : (0 : ℝ) ≤ 10), hu]
  have htlo : (9 / 55 : ℝ) < u⁻¹ := by
    rw [lt_inv_comm₀ (by norm_num) hupos]
    linarith
  have hthi : u⁻¹ < (5 / 27 : ℝ) := by
    rw [inv_lt_comm₀ hupos (by norm_num)]
    linarith
  have h1t : (0 : ℝ) < 1 + u⁻¹ := by positivity
  have hval : pyRound ((32 : ℝ) * (1 / (1 + u⁻¹))) = 27 := by
    apply pyRound_eq_of_lt_half
    · push_cast
      rw [mul_one_div, le_div_iff₀ h1t]
      nlinarith
    · push_cast
      rw [mul_one_div, div_lt_iff₀ h1t]
      nlinarith
  simp only [calculate_dispute_loss, calculate_expected, hexp, htneg]
  push_cast
  rw [hval]
  norm_num

theorem dl_100_1200 : calculate_dispute_loss 100 1200 32 = 1 := by
  have hexp : ((1200 : ℝ) - 100) / ELO_DIVISOR = 11 / 4 := by
    unfold ELO_DIVISOR; norm_num
  have ht : (100 : ℝ) ≤ (10 : ℝ) ^ ((11 : ℝ) / 4) := by
    have h2 : (10 : ℝ) ^ ((2 : ℕ) : ℝ) ≤ (10 : ℝ) ^ ((11 : ℝ) / 4) := by
      apply Real.rpow_le_rpow_of_exponent_le (by norm_num)
      norm_num
    rw [Real.rpow_natCast] at h2
    norm_num at h2
    linarith
  have htpos : (0 : ℝ) < (10 : ℝ) ^ ((11 : ℝ) / 4) :=
    Real.rpow_pos_of_pos (by norm_num) _
  have h1t : (0 : ℝ) < 1 + (10 : ℝ) ^ ((11 : ℝ) / 4) := by linarith
  have hval : pyRound ((32 : ℝ) * (1 / (1 + (10 : ℝ) ^ ((11 : ℝ) / 4)))) = 0 := by
    apply pyRound_eq_of_lt_half
    · push_cast
      positivity
    · push_cast
      rw [mul_one_div, div_lt_iff₀ h1t]
      nlinarith
  simp only [calculate_dispute_loss, calculate_expected, hexp]
  push_cast
  rw [hval]
  norm_num

theorem pyRound_29_half : pyRound ((29 : ℝ) / 2) = 14 := by
  have h : ((29 : ℝ) / 2) = ((14 : ℤ) : ℝ) + 1 / 2 := by push_cast; norm_num
  rw [h, pyRound_tie_even 14 (by norm_num)]

theorem pyRound_one_half : pyRound ((1 : ℝ) / 2) = 0 := by
  have h : ((1 : ℝ) / 2) = ((0 : ℤ) : ℝ) + 1 / 2 := by push_cast; norm_num
  rw [h, pyRound_tie_even 0 (by norm_num)]

theorem process_interaction_sim_frame (s : ELOSimulation) (p a : Agent)
    (u1 u2 : ℚ) :
    (s.process_interaction p a u1 u2).2.2.rating_history = s.rating_history := by
  simp only [ELOSimulation.process_interaction, will_complete_set_escrowed]
  cases hpc : p.will_complete a u1 <;> cases hac : a.will_complete p u2 <;>
    simp [hpc, hac]

theorem run_one_interaction_history (s : ELOSimulation) (d : Draw)
    (s' : ELOSimulation) (h : s.run_one_interaction d = .ok s') :
    s'.rating_history = s.rating_history := by
  unfold ELOSimulation.run_one_interaction at h
  cases hp : s.agents.get? d.pIdx with
  | none =>
      rw [hp] at h
      cases hq : s.agents.get? d.aIdx <;> rw [hq] at h <;> simp at h
  | some p =>
      cases hq : s.agents.get? d.aIdx with
      | none => rw [hp, hq] at h; simp at h
      | some a =>
          rw [hp, hq] at h
          simp at h
          rw [← h]
          exact process_interaction_sim_frame s p a d.u1 d.u2

theorem run_interactions_history (ds : ℕ → Draw) :
    ∀ (n i : ℕ) (s s' : ELOSimulation),
      ELOSimulation.run_interactions ds i n s = .ok s' →
      s'.rating_history = s.rating_history := by
  intro n
  induction n with
  | zero =>
      intro i s s' h
      simp [ELOSimulation.run_interactions] at h
      rw [← h]
  | succ m ih =>
      intro i s s' h
      unfold ELOSimulation.run_interactions at h
      cases h1 : s.run_one_interaction (ds i) with
      | error e => rw [h1] at h; simp at h
      | ok s1 =>
          rw [h1] at h
          simp at h
          rw [ih (i + 1) s1 s' h]
          exact run_one_interaction_history s (ds i) s1 h1

theorem run_round_history (s : ELOSimulation) (r I : ℕ)
    (draws : ℕ → ℕ → Draw) (s' : ELOSimulation)
    (h : s.run_round r I draws = .ok s') :
    ∃ t : List (List (ℕ × ℚ)),
      s'.rating_history = s.rating_history ++ t ∧
      t.length = (if r % 10 = 0 then 1 else 0) := by
  unfold ELOSimulation.run_round at h
  cases h1 : ELOSimulation.run_interactions (draws r) 0 I s with
  | error e => rw [h1] at h; simp at h
  | ok s1 =>
      rw [h1] at h
      simp at h
      have hh := run_interactions_history (draws r) I 0 s s1 h1
      by_cases hr : r % 10 = 0
      · rw [if_pos hr] at h
        refine ⟨[s1.agents.map (fun a => (a.id, a.rating))], ?_, by simp [hr]⟩
        rw [← h]
        simp [ELOSimulation.record_ratings, hh]
      · rw [if_neg hr] at h
        refine ⟨[], ?_, by simp [hr]⟩
        rw [← h, hh]
        simp

theorem run_rounds_history (I : ℕ) (draws : ℕ → ℕ → Draw) :
    ∀ (n r : ℕ) (s s' : ELOSimulation),
      ELOSimulation.run_rounds I draws r n s = .ok s' →
      ∃ t : List (List (ℕ × ℚ)),
        s'.rating_history = s.rating_history ++ t ∧
        t.length = (r + n + 9) / 10 - (r + 9) / 10 := by
  intro n
  induction n with
  | zero =>
      intro r s s' h
      simp [ELOSimulation.run_rounds] at h
      exact ⟨[], by simp [← h], by simp⟩
  | succ m ih =>
      intro r s s' h
      unfold ELOSimulation.run_rounds at h
      cases h1 : s.run_round r I draws with
      | error e => rw [h1] at h; simp at h
      | ok s1 =>
          rw [h1] at h
          simp at h
          obtain ⟨t1, ht1, hl1⟩ := run_round_history s r I draws s1 h1
          obtain ⟨t2, ht2, hl2⟩ := ih (r + 1) s1 s' h
          refine ⟨t1 ++ t2, ?_, ?_⟩
          · rw [ht2, ht1, List.append_assoc]
          · rw [List.length_append, hl1, hl2]
            by_cases hr : r % 10 = 0
            · rw [if_pos hr]; omega
            · rw [if_neg hr]; omega

theorem get_results_history (s : ELOSimulation) (rounds : ℕ)
    (res : SimulationResult) (h : s.get_results rounds = .ok res) :
    res.rating_history = s.rating_history := by
  unfold ELOSimulation.get_results at h
  cases hh : s.rating_history.head? with
  | none => rw [hh] at h; simp at h
  | some h0 =>
      rw [hh] at h
      simp only [] at h
      cases h1 : pydiv ((s.agents.map Agent.rating).sum - (h0.map Prod.snd).sum)
          (h0.map Prod.snd).sum with
      | error e => rw [h1] at h; simp at h
      | ok infl =>
          rw [h1] at h
          cases h2 : gini_of (s.agents.map Agent.rating) with
          | error e => rw [h2] at h; simp at h
          | ok g =>
              rw [h2] at h
              simp at h
              rw [← h]

/-- C2: for every interaction processed on two agents whose ratings are at
least `MINIMUM_RATING` beforehand, both parties' ratings are at least
`MINIMUM_RATING` afterward, in each of the three settlement branches
(the proof is by cases on the two completion decisions, and every branch's
rating update is clamped below at `MINIMUM_RATING`, which also makes the
conclusion independent of the two hypotheses). -/
theorem ratings_clamped_at_minimum (s : ELOSimulation) (p a : Agent)
    (u1 u2 : ℚ) (hp : MINIMUM_RATING ≤ p.rating)
    (ha : MINIMUM_RATING ≤ a.rating) :
    MINIMUM_RATING ≤ (s.process_interaction p a u1 u2).1.rating ∧
    MINIMUM_RATING ≤ (s.process_interaction p a u1 u2).2.1.rating := by
  simp only [ELOSimulation.process_interaction, will_complete_set_escrowed]
  cases hpc : p.will_complete a u1 <;> cases hac : a.will_complete p u2 <;>
    simp [hpc, hac, le_max_left]

theorem ratings_clamped_at_minimum_witness :
    MINIMUM_RATING ≤ (simStake.process_interaction agentA agentL 0 0).1.rating ∧
    MINIMUM_RATING ≤ (simStake.process_interaction agentA agentL 0 0).2.1.rating :=
  ratings_clamped_at_minimum simStake agentA agentL 0 0
    (by norm_num [MINIMUM_RATING, agentA]) (by norm_num [MINIMUM_RATING, agentL])

/-- C3: across one full interaction the net change to each party's
`escrowed` is zero — the stake added in the staking step is subtracted
again, by exactly the same amount, in every settlement branch. -/
theorem escrow_net_zero (s : ELOSimulation) (p a : Agent) (u1 u2 : ℚ) :
    (s.process_interaction p a u1 u2).1.escrowed = p.escrowed ∧
    (s.process_interaction p a u1 u2).2.1.escrowed = a.escrowed := by
  simp only [ELOSimulation.process_interaction, will_complete_set_escrowed]
  cases hpc : p.will_complete a u1 <;> cases hac : a.will_complete p u2 <;>
    simp [hpc, hac]

/-- C5: for any real input ratings and any `k > 0`, `completion_gain` and
`dispute_loss` return an integer of magnitude at least 1;
`completion_gain` is `k * (1 - expected)`, halved when the flag is set,
rounded to nearest (ties to even, Python's `round`) and floored at 1, and
`dispute_loss` is `k * expected`, rounded the same way and floored at 1. -/
theorem gain_loss_magnitude_at_least_one (a b : ℝ) (k : ℤ) (halve : Bool)
    (hk : 0 < k) :
    1 ≤ calculate_completion_gain a b k halve ∧
    calculate_completion_gain a b k halve =
      max 1 (pyRound (if halve then (k : ℝ) * (1 - calculate_expected a b) / 2
        else (k : ℝ) * (1 - calculate_expected a b))) ∧
    1 ≤ calculate_dispute_loss a b k ∧
    calculate_dispute_loss a b k =
      max 1 (pyRound ((k : ℝ) * calculate_expected a b)) := by
  refine ⟨le_max_left _ _, ?_, le_max_left _ _, rfl⟩
  cases halve <;> simp [calculate_completion_gain]

theorem gain_loss_magnitude_at_least_one_witness :
    (0 : ℤ) < 32 ∧ 1 ≤ calculate_completion_gain 1200 1200 32 true ∧
    1 ≤ calculate_dispute_loss 1200 1200 32 := by
  have h := gain_loss_magnitude_at_least_one 1200 1200 32 true (by norm_num)
  exact ⟨by norm_num, h.1, h.2.2.1⟩

/-- C8: `expected_outcome` is total over all real rating inputs (its
denominator is strictly positive) and equals
`1 / (1 + 10 ^ ((opponent - self) / 400))`; for all real `a`, `b` it
satisfies `expected(a,b) + expected(b,a) = 1`, and `expected(x,x) = 1/2`
exactly. -/
theorem expected_outcome_total_and_complement (a b x : ℝ) :
    0 < 1 + (10 : ℝ) ^ ((b - a) / ELO_DIVISOR) ∧
    calculate_expected a b = 1 / (1 + (10 : ℝ) ^ ((b - a) / 400)) ∧
    calculate_expected a b + calculate_expected b a = 1 ∧
    calculate_expected x x = 1 / 2 := by
  have hpow : ∀ y : ℝ, 0 < (10 : ℝ) ^ y :=
    fun y => Real.rpow_pos_of_pos (by norm_num) y
  refine ⟨by positivity, rfl, ?_, ?_⟩
  · unfold calculate_expected ELO_DIVISOR
    have hneg : (a - b) / 400 = -((b - a) / 400) := by ring
    rw [hneg, Real.rpow_neg (by norm_num : (0 : ℝ) ≤ 10)]
    set t := (10 : ℝ) ^ ((b - a) / 400) with ht
    have htpos : 0 < t := hpow _
    field_simp
    ring
  · unfold calculate_expected
    simp
    norm_num

/-- C1: evaluation of the one-sided settlement at a concrete input showing
that the code does not use a single quantity `L`: with staking enabled, a
completing proposer at rating 1200 (stake 0) and a defaulting acceptor at
rating 1600 (stake 86), the first `dispute_loss` call (pre-update winner
rating 1200) yields `L = 29`, the winner moves to
`1200 + round(29 * 0.5) + 86 = 1300`, and the code then recomputes the
loser's loss from the already-updated winner rating 1300, yielding 27, so
the loser ends at `1600 - (27 + 86) = 1487` — whereas the claim's single-L
settlement `max(MINIMUM_RATING, 1600 - (L + 86))` with
`L = dispute_loss(1600, 1200, 32) = 29` gives 1485. -/
theorem one_sided_settlement_recomputed_loss :
    (simStake.process_interaction agentA agentL 0 0).2.1.rating = 1487 ∧
    max MINIMUM_RATING (agentL.rating -
      ((calculate_dispute_loss (agentL.rating : ℝ) (agentA.rating : ℝ)
        (get_k_factor agentL.transactions) : ℚ) + 86)) = 1485 ∧
    (1487 : ℚ) ≠ 1485 := by
  refine ⟨?_, ?_, by norm_num⟩
  · simp only [ELOSimulation.process_interaction, will_complete_set_escrowed]
    norm_num [agentA, agentL, simStake, Agent.will_complete, Agent.get_stake,
      Agent.available_elo, get_k_factor, TRANSACTIONS_NEW, K_NEW, MINIMUM_RATING,
      dl_1600_1200, dl_1600_1300, pyRound_29_half]
  · rw [show (agentL.rating : ℝ) = 1600 by norm_num [agentL],
      show (agentA.rating : ℝ) = 1200 by norm_num [agentA],
      show get_k_factor agentL.transactions = 32 by
        norm_num [agentL, get_k_factor, TRANSACTIONS_NEW, K_NEW],
      dl_1600_1200]
    norm_num [agentL, MINIMUM_RATING]

/-- C10: in the one-sided branch the winner's base gain
`round(L * 0.5)` has no floor at 1: whenever the first dispute-loss
computation yields `L = 1`, Python's round-half-to-even gives
`round(0.5) = 0`, so with staking disabled the winner's rating is exactly
unchanged.  Reachability of `L = 1` is shown by the witness, with a loser
at the rating floor far below a 1200-rated winner. -/
theorem one_sided_win_gain_no_floor (s : ELOSimulation) (p a : Agent)
    (u1 u2 : ℚ) (hstake : s.enable_staking = false)
    (hpc : p.will_complete a u1 = true)
    (hac : a.will_complete p u2 = false)
    (hL : calculate_dispute_loss (a.rating : ℝ) (p.rating : ℝ)
      (get_k_factor a.transactions) = 1)
    (hp : MINIMUM_RATING ≤ p.rating) :
    (s.process_interaction p a u1 u2).1.rating = p.rating := by
  simp only [ELOSimulation.process_interaction, will_complete_set_escrowed,
    hstake, hpc, hac]
  norm_num [hL, pyRound_one_half, max_eq_right hp]

theorem one_sided_win_gain_no_floor_witness :
    simNoStake.enable_staking = false ∧
    agentA.will_complete agentB 0 = true ∧
    agentB.will_complete agentA 0 = false ∧
    calculate_dispute_loss (agentB.rating : ℝ) (agentA.rating : ℝ)
      (get_k_factor agentB.transactions) = 1 ∧
    (simNoStake.process_interaction agentA agentB 0 0).1.rating = 1200 := by
  have hL : calculate_dispute_loss (agentB.rating : ℝ) (agentA.rating : ℝ)
      (get_k_factor agentB.transactions) = 1 := by
    rw [show ((agentB.rating : ℚ) : ℝ) = 100 by norm_num [agentB],
      show ((agentA.rating : ℚ) : ℝ) = 1200 by norm_num [agentA],
      show get_k_factor agentB.transactions = 32 by
        norm_num [agentB, get_k_factor, TRANSACTIONS_NEW, K_NEW]]
    exact dl_100_1200
  have hpc : agentA.will_complete agentB 0 = true := by
    norm_num [Agent.will_complete, agentA, agentB]
  have hac : agentB.will_complete agentA 0 = false := by
    norm_num [Agent.will_complete, agentA, agentB]
  have h := one_sided_win_gain_no_floor simNoStake agentA agentB 0 0 rfl
    hpc hac hL (by norm_num [MINIMUM_RATING, agentA])
  refine ⟨rfl, hpc, hac, hL, ?_⟩
  rw [h]
  norm_num [agentA]

/-- C9: for a successful run of `R ≥ 1` rounds starting from a fresh
simulation, the rating-history is one snapshot captured before round 0
(its head maps every agent id to that agent's rating at start), one
snapshot after each round whose index is a multiple of 10, and one final
snapshot — `⌈R/10⌉ + 2 = (R + 9) / 10 + 2` snapshots in all — and the
returned `SimulationResult` carries that same history. -/
theorem run_snapshot_schedule (s : ELOSimulation) (R I : ℕ)
    (draws : ℕ → ℕ → Draw) (out : ELOSimulation × SimulationResult)
    (hhist : s.rating_history = []) (hR : 1 ≤ R)
    (hrun : s.run R I draws = .ok out) :
    out.1.rating_history.length = (R + 9) / 10 + 2 ∧
    out.1.rating_history.head? =
      some (s.agents.map (fun a => (a.id, a.rating))) ∧
    out.2.rating_history = out.1.rating_history := by
  unfold ELOSimulation.run at hrun
  simp only [] at hrun
  cases h1 : ELOSimulation.run_rounds I draws 0 R s.record_ratings with
  | error e => rw [h1] at hrun; simp at hrun
  | ok s1 =>
      rw [h1] at hrun
      simp only [] at hrun
      cases h2 : s1.record_ratings.get_results R with
      | error e => rw [h2] at hrun; simp at hrun
      | ok res =>
          rw [h2] at hrun
          simp at hrun
          subst hrun
          obtain ⟨t, ht, hl⟩ :=
            run_rounds_history I draws R 0 s.record_ratings s1 h1
          have hs0 : s.record_ratings.rating_history =
              [s.agents.map (fun a => (a.id, a.rating))] := by
            simp [ELOSimulation.record_ratings, hhist]
          have hhist1 : (s1.record_ratings, res).1.rating_history =
              (s.agents.map (fun a => (a.id, a.rating))) ::
                (t ++ [s1.agents.map (fun a => (a.id, a.rating))]) := by
            simp only [ELOSimulation.record_ratings, ht, hs0]
            simp [hhist]
          refine ⟨?_, ?_, ?_⟩
          · rw [hhist1]
            simp
            omega
          · rw [hhist1]
            rfl
          · have hres := get_results_history s1.record_ratings R res h2
            simpa using hres

theorem run_snapshot_schedule_witness :
    simW9.rating_history = [] ∧ 1 ≤ 1 ∧
    Except.map List.length (Except.map ELOSimulation.rating_history
      (Except.map Prod.fst (simW9.run 1 0 drawConst))) =
      .ok ((1 + 9) / 10 + 2) := by
  refine ⟨rfl, le_refl 1, ?_⟩
  cases hrun : simW9.run 1 0 drawConst with
  | error e =>
      have hok : (simW9.run 1 0 drawConst).isOk = true := by
        norm_num [ELOSimulation.run, ELOSimulation.run_rounds,
          ELOSimulation.run_round, ELOSimulation.run_interactions,
          ELOSimulation.record_ratings, ELOSimulation.get_results, gini_of,
          pydiv, agentA, simW9, drawConst, List.insertionSort,
          List.orderedInsert, type_avg, Except.isOk, Except.toBool]
      rw [hrun] at hok
      simp [Except.isOk, Except.toBool] at hok
  | ok out =>
      have h := run_snapshot_schedule simW9 1 0 drawConst out rfl
        (le_refl 1) hrun
      simp [Except.map, h.1]

/-- C7: the whole run is a deterministic function of the configuration
(population counts, `halve_gains`, `enable_staking`, rounds,
interactions-per-round) and the sequence of random draws: two runs with
identical configuration and identical draw sequences produce identical
outputs — the same snapshot history and the same final
`SimulationResult`. -/
theorem run_deterministic (nR1 nU1 nM1 nS1 nR2 nU2 nM2 nS2 : ℕ)
    (hg1 st1 hg2 st2 : Bool) (us1 us2 : ℕ → ℚ × ℚ) (R1 I1 R2 I2 : ℕ)
    (d1 d2 : ℕ → ℕ → Draw) (hnR : nR1 = nR2) (hnU : nU1 = nU2)
    (hnM : nM1 = nM2) (hnS : nS1 = nS2) (hhg : hg1 = hg2) (hst : st1 = st2)
    (hus : us1 = us2) (hR : R1 = R2) (hI : I1 = I2) (hd : d1 = d2) :
    (mkSimulation nR1 nU1 nM1 nS1 hg1 st1 us1).run R1 I1 d1 =
      (mkSimulation nR2 nU2 nM2 nS2 hg2 st2 us2).run R2 I2 d2 := by
  subst hnR hnU hnM hnS hhg hst hus hR hI hd
  rfl

theorem run_deterministic_witness :
    (mkSimulation 1 1 1 1 true true (fun _ => (0, 0))).run 2 3 drawConst =
      (mkSimulation 1 1 1 1 true true (fun _ => (0, 0))).run 2 3 drawConst :=
  run_deterministic 1 1 1 1 1 1 1 1 true true true true (fun _ => (0, 0))
    (fun _ => (0, 0)) 2 3 2 3 drawConst drawConst rfl rfl rfl rfl rfl rfl
    rfl rfl rfl rfl

theorem gini_of_ok (rs : List ℚ) (hlen : rs.length ≠ 0) (hsum : rs.sum ≠ 0) :
    ∃ g, gini_of rs = .ok g := by
  have hperm := List.perm_insertionSort (· ≤ ·) rs
  have hs : (rs.insertionSort (· ≤ ·)).sum = rs.sum := hperm.sum_eq
  have hl : (rs.insertionSort (· ≤ ·)).length = rs.length := hperm.length_eq
  have hn : ((rs.length : ℚ)) ≠ 0 := Nat.cast_ne_zero.mpr hlen
  have hd1 : ((rs.length : ℚ) * rs.sum) ≠ 0 := mul_ne_zero hn hsum
  simp only [gini_of, pydiv, hs, hl]
  rw [if_neg hd1]
  simp only []
  rw [if_neg hn]
  exact ⟨_, rfl⟩

/-- C6 (amended): the Gini coefficient of a population equals
`(2 * Σ (i+1)·r_i) / (n * Σ r) - (n+1)/n` over the ratings sorted
ascending with 0-based index `i`, whenever `n ≥ 1` and `Σ r > 0`; for
`n = 0` or `Σ r = 0` the computation fails with a division-by-zero error
(Python's `ZeroDivisionError`, there being no `ConfigurationError` in the
code) rather than producing a silent zero or NaN result. -/
theorem gini_formula_or_zero_division (rs : List ℚ) :
    (1 ≤ rs.length → 0 < rs.sum →
      gini_of rs = .ok (2 * (((rs.insertionSort (· ≤ ·)).enum.map
          (fun p => ((p.1 : ℚ) + 1) * p.2)).sum) / ((rs.length : ℚ) * rs.sum) -
        ((rs.length : ℚ) + 1) / (rs.length : ℚ))) ∧
    (rs.length = 0 ∨ rs.sum = 0 → gini_of rs = .error .zeroDivisionError) := by
  have hperm := List.perm_insertionSort (· ≤ ·) rs
  have hs : (rs.insertionSort (· ≤ ·)).sum = rs.sum := hperm.sum_eq
  have hl : (rs.insertionSort (· ≤ ·)).length = rs.length := hperm.length_eq
  constructor
  · intro h1 h2
    have hn : ((rs.length : ℚ)) ≠ 0 := Nat.cast_ne_zero.mpr (by omega)
    have hd1 : ((rs.length : ℚ) * rs.sum) ≠ 0 := mul_ne_zero hn (ne_of_gt h2)
    simp only [gini_of, pydiv, hs, hl]
    rw [if_neg hd1]
    simp only []
    rw [if_neg hn]
  · intro h
    rcases h with h | h
    · simp only [gini_of, pydiv, hs, hl, h]
      norm_num
    · simp only [gini_of, pydiv, hs, hl, h]
      norm_num

theorem gini_formula_or_zero_division_witness :
    1 ≤ ([100, 300] : List ℚ).length ∧ (0 : ℚ) < ([100, 300] : List ℚ).sum ∧
    gini_of [100, 300] = .ok (1 / 4) := by
  have hlen : 1 ≤ ([100, 300] : List ℚ).length := by norm_num
  have hsum : (0 : ℚ) < ([100, 300] : List ℚ).sum := by norm_num
  have h := (gini_formula_or_zero_division [100, 300]).1 hlen hsum
  refine ⟨hlen, hsum, ?_⟩
  rw [h]
  norm_num [List.insertionSort, List.orderedInsert, List.enum, List.enumFrom]

/-- C6 (counterexample): at the empty population the Gini computation
fails with a `ZeroDivisionError`, not with the claimed configuration
error. -/
theorem gini_configuration_error_counterexample :
    gini_of ([] : List ℚ) = .error PyErr.zeroDivisionError ∧
    PyErr.zeroDivisionError ≠ PyErr.configurationError := by
  refine ⟨?_, by simp⟩
  norm_num [gini_of, pydiv, List.insertionSort]

/-- C4 (counterexample): a run with a non-positive round count does not
fail at all, let alone fast with a `ConfigurationError`: zero rounds on a
one-agent population completes successfully. -/
theorem no_fail_fast_validation_counterexample :
    (simW9.run 0 5 drawConst).isOk = true := by
  norm_num [ELOSimulation.run, ELOSimulation.run_rounds,
    ELOSimulation.record_ratings, ELOSimulation.get_results, gini_of, pydiv,
    agentA, simW9, List.insertionSort, List.orderedInsert, type_avg,
    Except.isOk, Except.toBool]

/-- C4 (amended): the source performs no configuration validation
whatsoever — there is no `ConfigurationError` class and no fail-fast
check.  A run with a non-positive round count on any population with a
positive total rating completes successfully without raising anything. -/
theorem zero_rounds_run_succeeds (hg st : Bool) (agents : List Agent)
    (I : ℕ) (draws : ℕ → ℕ → Draw) (hne : agents.length ≠ 0)
    (hsum : 0 < (agents.map Agent.rating).sum) :
    ((⟨hg, st, agents, [], 0, 0⟩ : ELOSimulation).run 0 I draws).isOk
      = true := by
  have hmm : (agents.map (fun a => (a.id, a.rating))).map Prod.snd =
      agents.map Agent.rating := by
    simp [List.map_map, Function.comp]
  obtain ⟨g, hgini⟩ := gini_of_ok (agents.map Agent.rating)
    (by simpa using hne) (ne_of_gt hsum)
  simp only [ELOSimulation.run, ELOSimulation.run_rounds,
    ELOSimulation.record_ratings, ELOSimulation.get_results]
  simp only [List.nil_append, List.singleton_append, List.head?_cons, hmm]
  rw [pydiv, if_neg (ne_of_gt hsum)]
  simp only [hgini]
  simp [Except.isOk, Except.toBool]

theorem zero_rounds_run_succeeds_witness :
    [agentA].length ≠ 0 ∧ 0 < ([agentA].map Agent.rating).sum ∧
    ((⟨true, true, [agentA], [], 0, 0⟩ : ELOSimulation).run 0 5 drawConst).isOk
      = true := by
  have h1 : [agentA].length ≠ 0 := by norm_num
  have h2 : (0 : ℚ) < ([agentA].map Agent.rating).sum := by
    norm_num [agentA]
  exact ⟨h1, h2, zero_rounds_run_succeeds true true [agentA] 5 drawConst h1 h2⟩

end EloSwarm
